import Mathlib

/-!
Shallow embedding of the herots TLS-server bootstrap package (src/herots.go).

The package is configuration and lifecycle glue around the Go standard
library's `crypto/tls`, `crypto/x509`, `encoding/pem` and `net` packages.
Those external collaborators are modelled parametrically by an `Env` record
of pure functions (key-pair parsing, PEM decoding, certificate parsing,
listening, accepting); the herots code itself is translated function by
function.  A Go `nil`-pointer dereference (a runtime panic) is modelled by
returning `none` from the operation; every other outcome is `some` of the
Go return value paired with the updated receiver state.  Text written with
`fmt.Fprintf` to the server's log destination is accumulated in the
`logOut` trace field of the state.
-/

deriving instance DecidableEq for Except

namespace Herots

/-- Raw byte sequences (Go `[]byte`). -/
abbrev Bytes := List Nat

/-- A decoded PEM block (Go `pem.Block`); only the `Bytes` payload is used. -/
structure PemBlock where
  Bytes : List Nat
deriving DecidableEq

/-- A parsed X.509 certificate (Go `*x509.Certificate`), identified by its raw bytes;
`x509.Certificate.Equal` compares raw bytes. -/
structure X509Cert where
  Raw : List Nat
deriving DecidableEq

/-- Go `x509.CertPool`: the list of certificates added so far, in insertion order. -/
structure CertPool where
  certs : List X509Cert
deriving DecidableEq

/-- Go `x509.NewCertPool()`: an empty pool. -/
def CertPool.New : CertPool := ⟨[]⟩

/-- Go `(*x509.CertPool).AddCert`: appends the certificate unless an equal one
is already present (the standard library checks `c.Equal(cert)` and returns
without adding a duplicate). -/
def CertPool.AddCert (p : CertPool) (c : X509Cert) : CertPool :=
  if c ∈ p.certs then p else ⟨p.certs ++ [c]⟩

/-- Go `tls.Certificate`: the parsed chain (field `Certificate [][]byte`).
The zero value has an empty chain. -/
structure TLSCertificate where
  Certificate : List (List Nat)
deriving DecidableEq

/-- An opaque listening socket (Go `net.Listener`). -/
structure Listener where
  id : Nat
deriving DecidableEq

/-- An accepted connection (Go `net.Conn`); only its remote address is observed. -/
structure Conn where
  RemoteAddr : String
deriving DecidableEq

/-- The `Options` structure of herots (`src/herots.go`).  `LogDestination` is an
`io.Writer` modelled as an opaque identifier; the herots code never reads this
field. `TLSAuthType` is Go `tls.ClientAuthType` (`tls.RequireAnyClientCert = 2`). -/
structure Options where
  Host : String
  Port : Int
  LogLevel : Int
  LogDestination : Nat
  TLSAuthType : Nat
deriving DecidableEq

/-- The anonymous `pool` struct inside `Server.certs`. -/
structure PoolState where
  IsSet : Bool
  Pool : Option CertPool
deriving DecidableEq

/-- The anonymous `certs` struct inside `Server`. -/
structure CertsState where
  Cert : TLSCertificate
  pool : PoolState
deriving DecidableEq

/-- The herots `Server` structure.  `listener` and `certs.pool.Pool` are Go
pointers that start out `nil` (`none`).  `logDestination` is the `io.Writer`
identity, and `logOut` is the text that has been written to it. -/
structure Server where
  options : Options
  certs : CertsState
  listener : Option Listener
  logDestination : Nat
  logOut : List String
deriving DecidableEq

-- predefined errors messages (src/herots.go)

def LoadKeyPairError : String := "herots: load key pair error"

def LoadClientCaCertError : String := "herots srv: load client CA cert error"

def StartServerError : String := "herots srv: start tls server error"

def NoKeyPairLoad : String := "herots: no load key pair (use LoadKeyPair func)"

def AcceptConnError : String := "herots srv: connection accept error"

/-- The `tls.Config` value built by `Start` (fields the herots code sets;
`Rand` is the external entropy source and carries no data here). -/
structure TLSConfigData where
  ClientAuth : Nat
  Certificates : List TLSCertificate
  ClientCAs : Option CertPool
deriving DecidableEq

/-- The external collaborators (Go standard library), taken as parameters:
`tls.X509KeyPair`, `pem.Decode` (first block only; `none` when no PEM block is
found), `x509.ParseCertificate`, `tls.Listen` and `(net.Listener).Accept`. -/
structure Env where
  x509KeyPair : Bytes → Bytes → Except String TLSCertificate
  pemDecode : Bytes → Option PemBlock
  parseCertificate : Bytes → Except String X509Cert
  tlsListen : String → String → TLSConfigData → Except String Listener
  accept : Listener → Except String Conn

/-- `NewServer()`: predefined options, log destination `os.Stdout` (id 1),
zero-valued certificate state, nil pool, nil listener. -/
def NewServer : Server :=
  { options :=
      { Host := "127.0.0.1"
      , Port := 9000
      , LogLevel := 0
      , LogDestination := 0
      , TLSAuthType := 2 }
  , certs := { Cert := ⟨[]⟩, pool := { IsSet := false, Pool := none } }
  , listener := none
  , logDestination := 1
  , logOut := [] }

/-- `(*Server).log`: emits `"herots srv: <m>\n"` to the log destination iff the
configured `LogLevel` is non-zero and `LogLevel <= lvl`. -/
def Server.log (h : Server) (m : String) (lvl : Int) : Server :=
  if h.options.LogLevel = 0 then h
  else if h.options.LogLevel ≤ lvl then
    { h with logOut := h.logOut ++ ["herots srv: " ++ m ++ "\n"] }
  else h

/-- `(*Server).SetMessagesDst`. -/
def Server.SetMessagesDst (h : Server) (dst : Nat) : Server :=
  { h with logDestination := dst }

/-- `(*Server).Config`: if the requested port is `0`, two messages are logged
(at the pre-call options, since `h.options = o` happens last) and the port is
replaced by `9000`; the options record is then stored wholesale. -/
def Server.Config (h : Server) (o : Options) : Server :=
  if o.Port = 0 then
    let h1 := h.log "port can't be '0'" 2
    let h2 := h1.log "set port by default (9000)" 2
    { h2 with options := { o with Port := 9000 } }
  else
    { h with options := o }

/-- Field update helper: `h.certs.pool.Pool = p`. -/
def Server.withPool (h : Server) (p : Option CertPool) : Server :=
  { h with certs := { h.certs with pool := { h.certs.pool with Pool := p } } }

/-- Field update helper: `h.certs.pool.IsSet = b`. -/
def Server.withIsSet (h : Server) (b : Bool) : Server :=
  { h with certs := { h.certs with pool := { h.certs.pool with IsSet := b } } }

/-- Field update helper: `h.certs.Cert = c`. -/
def Server.withCert (h : Server) (c : TLSCertificate) : Server :=
  { h with certs := { h.certs with Cert := c } }

/-- `h.certs.pool.Pool.AddCert(ca)`: dereferences the pool pointer (`none` is a
nil-pointer panic) and adds the certificate. -/
def Server.poolAddCert (h : Server) (ca : X509Cert) : Option Server :=
  match h.certs.pool.Pool with
  | none => none
  | some p => some (h.withPool (some (p.AddCert ca)))

/-- `(*Server).LoadKeyPair`: creates a fresh pool first, then parses the key
pair, stores it, re-parses the first PEM block of the certificate input and
adds it to the pool.  `pem.Decode` returning `nil` makes `pemData.Bytes`
a nil-pointer dereference (`none` = panic). -/
def Server.LoadKeyPair (env : Env) (h : Server) (cert key : Bytes) :
    Option (Except String Unit × Server) :=
  let h1 := h.withPool (some CertPool.New)
  match env.x509KeyPair cert key with
  | Except.error e => some (Except.error (LoadKeyPairError ++ ": " ++ e ++ "\n"), h1)
  | Except.ok c =>
    let h2 := h1.withCert c
    match env.pemDecode cert with
    | none => none
    | some pemData =>
      match env.parseCertificate pemData.Bytes with
      | Except.error e => some (Except.error (LoadKeyPairError ++ ": " ++ e ++ "\n"), h2)
      | Except.ok ca =>
        match h2.poolAddCert ca with
        | none => none
        | some h3 =>
          let h4 := h3.withIsSet true
          some (Except.ok (), h4.log "load key pair ok" 2)

/-- `(*Server).AddClientCACert`: decodes the first PEM block (`nil` block =
panic on `pemData.Bytes`), parses it, and adds it to the pool (`nil` pool =
panic, when `LoadKeyPair` was never called). -/
def Server.AddClientCACert (env : Env) (h : Server) (cert : Bytes) :
    Option (Except String Unit × Server) :=
  match env.pemDecode cert with
  | none => none
  | some pemData =>
    match env.parseCertificate pemData.Bytes with
    | Except.error e => some (Except.error (LoadClientCaCertError ++ ": " ++ e ++ "\n"), h)
    | Except.ok ca =>
      match h.poolAddCert ca with
      | none => none
      | some h2 => some (Except.ok (), h2.log "load client CA cert ok" 2)

/-- The `tls.Config` value `Start` builds from the server state. -/
def Server.tlsConfig (h : Server) : TLSConfigData :=
  { ClientAuth := h.options.TLSAuthType
  , Certificates := [h.certs.Cert]
  , ClientCAs := h.certs.pool.Pool }

/-- The `host:port` string `Start` builds (`strconv.Itoa` on the port). -/
def Server.service (h : Server) : String :=
  h.options.Host ++ ":" ++ toString h.options.Port

/-- `(*Server).Start`: fails with the `NoKeyPairLoad` message when the stored
certificate chain is empty, before any listen attempt; otherwise listens on
`host:port` with the built TLS config and stores the listener. -/
def Server.Start (env : Env) (h : Server) : Except String Unit × Server :=
  if h.certs.Cert.Certificate.length = 0 then
    (Except.error (NoKeyPairLoad ++ "\n"), h)
  else
    match env.tlsListen "tcp" h.service h.tlsConfig with
    | Except.error e => (Except.error (StartServerError ++ ": " ++ e ++ "\n"), h)
    | Except.ok l =>
      let h2 := { h with listener := some l }
      (Except.ok (), h2.log ("listening on " ++ h.service) 2)

/-- `(*Server).Accept`: calls `Accept` on the stored listener (`nil` listener =
panic); logs the error at level 3 and wraps it, or logs the remote address at
level 2 on success. -/
def Server.Accept (env : Env) (h : Server) : Option (Except String Conn × Server) :=
  match h.listener with
  | none => none
  | some l =>
    match env.accept l with
    | Except.error e =>
      (some (Except.error (AcceptConnError ++ ": " ++ e ++ "\n"),
             h.log ("accept conn error: " ++ e) 3))
    | Except.ok conn =>
      some (Except.ok conn, h.log ("accepted conn from " ++ conn.RemoteAddr) 2)

/-! ## Derived definitions used by the statements -/

/-- The single line `log` writes for message `m` when it writes at all. -/
def logLine (m : String) : String := "herots srv: " ++ m ++ "\n"

/-- The lines `log m lvl` appends under options `o`: one line iff
`o.LogLevel ≠ 0 ∧ o.LogLevel ≤ lvl`, none otherwise. -/
def emittedLines (o : Options) (m : String) (lvl : Int) : List String :=
  if o.LogLevel = 0 then [] else if o.LogLevel ≤ lvl then [logLine m] else []

/-- What the first PEM block of `inp` parses to, if anything: the composition
of `pem.Decode` and `x509.ParseCertificate` used by `AddClientCACert`. -/
def parsesTo (env : Env) (inp : Bytes) : Option X509Cert :=
  match env.pemDecode inp with
  | none => none
  | some blk =>
    match env.parseCertificate blk.Bytes with
    | Except.error _ => none
    | Except.ok ca => some ca

/-- Run `AddClientCACert` over a list of inputs, requiring every call to
return without error (and without panic). -/
def addAll (env : Env) (h : Server) : List Bytes → Option Server
  | [] => some h
  | c :: cs =>
    match h.AddClientCACert env c with
    | some (Except.ok _, h2) => addAll env h2 cs
    | _ => none

/-- Left fold of `AddCert` over a list of certificates. -/
def foldAdd (p : CertPool) (cas : List X509Cert) : CertPool :=
  cas.foldl CertPool.AddCert p

/-- Extract the post-state of an operation outcome (default on panic). -/
def resultState (r : Option (Except String Unit × Server)) (d : Server) : Server :=
  match r with
  | some (_, h) => h
  | none => d

/-- Whether an operation outcome is an error return (not a panic, not success). -/
def isError (r : Option (Except String Unit × Server)) : Bool :=
  match r with
  | some (Except.error _, _) => true
  | _ => false

/-- All fields of the server state except the log trace coincide. -/
def sameCore (a b : Server) : Prop :=
  a.options = b.options ∧ a.certs = b.certs ∧ a.listener = b.listener ∧
  a.logDestination = b.logDestination

/-- A concrete, fully computable environment used for witnesses and
counterexamples.  Key pairs parse iff both inputs are non-empty; the first PEM
block of a non-empty input is the input itself; a block parses as a
certificate iff its first byte is not 9; listening always succeeds; accepting
always fails with a closed-connection error. -/
def testEnv : Env :=
  { x509KeyPair := fun cert key =>
      if cert = [] ∨ key = [] then Except.error "tls: failed to find any PEM data in certificate input"
      else Except.ok ⟨[cert]⟩
  , pemDecode := fun b => if b = [] then none else some ⟨b⟩
  , parseCertificate := fun b =>
      if b.head? = some 9 then Except.error "x509: malformed certificate" else Except.ok ⟨b⟩
  , tlsListen := fun _ _ _ => Except.ok ⟨1⟩
  , accept := fun _ => Except.error "use of closed network connection" }

/-! ## Concrete states for witnesses and counterexamples -/

/-- The state reached from `NewServer` by a successful `LoadKeyPair` under
`testEnv` with certificate bytes `[1]` and key bytes `[1]`. -/
def sLoaded : Server := resultState (NewServer.LoadKeyPair testEnv [1] [1]) NewServer

/-- `sLoaded` after one successful `AddClientCACert` of input `[2]`. -/
def sLoadedAdded : Server := (addAll testEnv sLoaded [[2]]).getD NewServer

/-- A server whose pool holds one certificate with raw bytes `[5]`. -/
def sPool5 : Server := NewServer.withPool (some ⟨[⟨[5]⟩]⟩)

/-- `NewServer` reconfigured to log level 2. -/
def sLevel2 : Server := { NewServer with options := { NewServer.options with LogLevel := 2 } }

/-- An options record requesting port `0`. -/
def oPort0 : Options :=
  { Host := "0.0.0.0", Port := 0, LogLevel := 2, LogDestination := 0, TLSAuthType := 2 }

/-! ## Helper lemmas -/

theorem log_eq (h : Server) (m : String) (lvl : Int) :
    h.log m lvl = { h with logOut := h.logOut ++ emittedLines h.options m lvl } := by
  unfold Server.log emittedLines logLine
  split
  · simp
  · split <;> simp

@[simp] theorem log_options (h : Server) (m : String) (lvl : Int) :
    (h.log m lvl).options = h.options := by rw [log_eq]

@[simp] theorem log_certs (h : Server) (m : String) (lvl : Int) :
    (h.log m lvl).certs = h.certs := by rw [log_eq]

@[simp] theorem log_listener (h : Server) (m : String) (lvl : Int) :
    (h.log m lvl).listener = h.listener := by rw [log_eq]

@[simp] theorem log_logDestination (h : Server) (m : String) (lvl : Int) :
    (h.log m lvl).logDestination = h.logDestination := by rw [log_eq]

@[simp] theorem log_logOut (h : Server) (m : String) (lvl : Int) :
    (h.log m lvl).logOut = h.logOut ++ emittedLines h.options m lvl := by rw [log_eq]

theorem log_sameCore (h : Server) (m : String) (lvl : Int) :
    sameCore (h.log m lvl) h := by
  exact ⟨log_options h m lvl, log_certs h m lvl, log_listener h m lvl, log_logDestination h m lvl⟩

theorem log_of_zero (h : Server) (m : String) (lvl : Int)
    (hz : h.options.LogLevel = 0) : h.log m lvl = h := by
  unfold Server.log
  rw [if_pos hz]

theorem loadKeyPair_pairError (env : Env) (h : Server) (cert key : Bytes) (e : String)
    (hk : env.x509KeyPair cert key = Except.error e) :
    h.LoadKeyPair env cert key
      = some (Except.error (LoadKeyPairError ++ ": " ++ e ++ "\n"),
              h.withPool (some CertPool.New)) := by
  simp only [Server.LoadKeyPair, hk]

theorem loadKeyPair_reparseError (env : Env) (h : Server) (cert key : Bytes)
    (c : TLSCertificate) (blk : PemBlock) (e : String)
    (hk : env.x509KeyPair cert key = Except.ok c)
    (hd : env.pemDecode cert = some blk)
    (hp : env.parseCertificate blk.Bytes = Except.error e) :
    h.LoadKeyPair env cert key
      = some (Except.error (LoadKeyPairError ++ ": " ++ e ++ "\n"),
              (h.withPool (some CertPool.New)).withCert c) := by
  simp only [Server.LoadKeyPair, hk, hd, hp]

theorem loadKeyPair_ok (env : Env) (h : Server) (cert key : Bytes)
    (c : TLSCertificate) (blk : PemBlock) (ca : X509Cert)
    (hk : env.x509KeyPair cert key = Except.ok c)
    (hd : env.pemDecode cert = some blk)
    (hp : env.parseCertificate blk.Bytes = Except.ok ca) :
    h.LoadKeyPair env cert key
      = some (Except.ok (),
          Server.log
            ((((h.withPool (some CertPool.New)).withCert c).withPool
                (some (CertPool.New.AddCert ca))).withIsSet true)
            "load key pair ok" 2) := by
  simp only [Server.LoadKeyPair, Server.poolAddCert, hk, hd, hp]
  rfl

theorem addClientCACert_parseError (env : Env) (h : Server) (inp : Bytes)
    (blk : PemBlock) (e : String)
    (hd : env.pemDecode inp = some blk)
    (hp : env.parseCertificate blk.Bytes = Except.error e) :
    h.AddClientCACert env inp
      = some (Except.error (LoadClientCaCertError ++ ": " ++ e ++ "\n"), h) := by
  simp only [Server.AddClientCACert, hd, hp]

theorem addClientCACert_ok (env : Env) (h : Server) (inp : Bytes) (ca : X509Cert) (p : CertPool)
    (hca : parsesTo env inp = some ca) (hpool : h.certs.pool.Pool = some p) :
    h.AddClientCACert env inp
      = some (Except.ok (),
          (h.withPool (some (p.AddCert ca))).log "load client CA cert ok" 2) := by
  unfold parsesTo at hca
  unfold Server.AddClientCACert Server.poolAddCert
  cases hd : env.pemDecode inp with
  | none => rw [hd] at hca; exact absurd hca (by simp)
  | some blk =>
    rw [hd] at hca
    simp only at hca
    cases hp : env.parseCertificate blk.Bytes with
    | error e => rw [hp] at hca; exact absurd hca (by simp)
    | ok ca2 =>
      rw [hp] at hca
      simp only [Option.some.injEq] at hca
      subst hca
      simp only [Server.AddClientCACert, Server.poolAddCert, hd, hp, hpool]

theorem start_noCredentials (env : Env) (h : Server)
    (hc : h.certs.Cert.Certificate.length = 0) :
    h.Start env = (Except.error (NoKeyPairLoad ++ "\n"), h) := by
  unfold Server.Start
  rw [if_pos hc]

theorem start_listenError (env : Env) (h : Server) (e : String)
    (hc : ¬ h.certs.Cert.Certificate.length = 0)
    (hl : env.tlsListen "tcp" h.service h.tlsConfig = Except.error e) :
    h.Start env = (Except.error (StartServerError ++ ": " ++ e ++ "\n"), h) := by
  unfold Server.Start
  rw [if_neg hc, hl]

theorem start_ok (env : Env) (h : Server) (l : Listener)
    (hc : ¬ h.certs.Cert.Certificate.length = 0)
    (hl : env.tlsListen "tcp" h.service h.tlsConfig = Except.ok l) :
    h.Start env
      = (Except.ok (), Server.log { h with listener := some l } ("listening on " ++ h.service) 2) := by
  unfold Server.Start
  rw [if_neg hc, hl]

theorem accept_error (env : Env) (h : Server) (l : Listener) (e : String)
    (hL : h.listener = some l) (ha : env.accept l = Except.error e) :
    h.Accept env
      = some (Except.error (AcceptConnError ++ ": " ++ e ++ "\n"),
              h.log ("accept conn error: " ++ e) 3) := by
  simp only [Server.Accept, hL, ha]

theorem accept_ok (env : Env) (h : Server) (l : Listener) (conn : Conn)
    (hL : h.listener = some l) (ha : env.accept l = Except.ok conn) :
    h.Accept env
      = some (Except.ok conn, h.log ("accepted conn from " ++ conn.RemoteAddr) 2) := by
  simp only [Server.Accept, hL, ha]

theorem mem_AddCert (p : CertPool) (c x : X509Cert) :
    x ∈ (p.AddCert c).certs ↔ x ∈ p.certs ∨ x = c := by
  unfold CertPool.AddCert
  split
  · rename_i hmem
    constructor
    · exact Or.inl
    · rintro (hx | rfl)
      · exact hx
      · exact hmem
  · simp

theorem length_AddCert (p : CertPool) (c : X509Cert) (hc : c ∉ p.certs) :
    (p.AddCert c).certs.length = p.certs.length + 1 := by
  unfold CertPool.AddCert
  rw [if_neg hc]
  simp

theorem mem_foldAdd (cas : List X509Cert) :
    ∀ (p : CertPool) (x : X509Cert),
      x ∈ (foldAdd p cas).certs ↔ x ∈ p.certs ∨ x ∈ cas := by
  induction cas with
  | nil => intro p x; simp [foldAdd]
  | cons a t ih =>
    intro p x
    have hstep : foldAdd p (a :: t) = foldAdd (p.AddCert a) t := rfl
    rw [hstep, ih (p.AddCert a) x, mem_AddCert]
    simp [or_assoc]

theorem length_foldAdd (cas : List X509Cert) :
    ∀ (p : CertPool), (p.certs ++ cas).Nodup →
      (foldAdd p cas).certs.length = p.certs.length + cas.length := by
  induction cas with
  | nil => intro p _; simp [foldAdd]
  | cons a t ih =>
    intro p hnd
    have hstep : foldAdd p (a :: t) = foldAdd (p.AddCert a) t := rfl
    have hna : a ∉ p.certs := by
      rw [List.nodup_append] at hnd
      intro hmem
      exact hnd.2.2 hmem (List.mem_cons_self a t)
    have hadd : (p.AddCert a).certs = p.certs ++ [a] := by
      unfold CertPool.AddCert
      rw [if_neg hna]
    have hnd2 : ((p.AddCert a).certs ++ t).Nodup := by
      rw [hadd, List.append_assoc]
      simpa using hnd
    rw [hstep, ih (p.AddCert a) hnd2, hadd]
    simp
    omega

theorem addAll_ok (env : Env) (inputs : List Bytes) :
    ∀ (cas : List X509Cert) (h : Server) (p : CertPool),
    inputs.map (parsesTo env) = cas.map some →
    h.certs.pool.Pool = some p →
    ∃ h2, addAll env h inputs = some h2
      ∧ h2.certs.pool.Pool = some (foldAdd p cas)
      ∧ h2.options = h.options
      ∧ h2.certs.Cert = h.certs.Cert
      ∧ h2.certs.pool.IsSet = h.certs.pool.IsSet
      ∧ h2.listener = h.listener := by
  induction inputs with
  | nil =>
    intro cas h p hmap hpool
    cases cas with
    | nil => exact ⟨h, rfl, by simpa [foldAdd] using hpool, rfl, rfl, rfl, rfl⟩
    | cons a t => simp at hmap
  | cons i it ih =>
    intro cas h p hmap hpool
    cases cas with
    | nil => simp at hmap
    | cons ca ct =>
      simp only [List.map_cons, List.cons.injEq] at hmap
      obtain ⟨hca, hrest⟩ := hmap
      have hstep := addClientCACert_ok env h i ca p hca hpool
      have hp1 : ((h.withPool (some (p.AddCert ca))).log "load client CA cert ok" 2).certs.pool.Pool
          = some (p.AddCert ca) := by
        rw [log_certs]
        rfl
      obtain ⟨h2, hrun, hpool2, hopt, hcert, hisset, hlst⟩ :=
        ih ct ((h.withPool (some (p.AddCert ca))).log "load client CA cert ok" 2)
          (p.AddCert ca) hrest hp1
      refine ⟨h2, ?_, hpool2, ?_, ?_, ?_, ?_⟩
      · simp only [addAll, hstep]
        exact hrun
      · rw [hopt, log_options]; rfl
      · rw [hcert, log_certs]; rfl
      · rw [hisset, log_certs]; rfl
      · rw [hlst, log_listener]; rfl

theorem startErr_ne_noKey (e : String) :
    StartServerError ++ ": " ++ e ++ "\n" ≠ NoKeyPairLoad ++ "\n" := by
  intro hco
  have hdata : (StartServerError ++ ": " ++ e ++ "\n").data = (NoKeyPairLoad ++ "\n").data := by
    rw [hco]
  have hL : (StartServerError ++ ": " ++ e ++ "\n").data
      = StartServerError.data ++ (": " ++ e ++ "\n").data := rfl
  have hR : (NoKeyPairLoad ++ "\n").data = NoKeyPairLoad.data ++ "\n".data := rfl
  rw [hL, hR] at hdata
  have h1 : (StartServerError.data ++ (": " ++ e ++ "\n").data)[6]? = some ' ' := by
    rw [List.getElem?_append_left (by decide)]
    decide
  have h2 : (NoKeyPairLoad.data ++ "\n".data)[6]? = some ':' := by
    rw [List.getElem?_append_left (by decide)]
    decide
  rw [hdata, h2] at h1
  cases h1

/-! ## The claims -/

/-- Claim C1 (code-bug demonstration): the implemented `log` compares the other
way around — it emits iff the configured level is non-zero and `LogLevel ≤ lvl`
— so the configured level is a minimum severity, not the maximum verbosity
ceiling the claim and the `Options.LogLevel` doc comment describe.  With
configured level 1 an error-level (3) message IS emitted (the claim says level
1 emits notices only), and with configured level 3 an info-level (2) message
is suppressed (the claim says level 3 emits notices, info and errors). -/
theorem C1_log_threshold_inverted :
    ((({ NewServer with
          options := { NewServer.options with LogLevel := 1 } }).log "m" 3).logOut
        = ["herots srv: m\n"])
    ∧ ((({ NewServer with
          options := { NewServer.options with LogLevel := 3 } }).log "m" 2).logOut
        = []) := by
  exact ⟨rfl, rfl⟩

/-- Claim C2 counterexample: with the server's log level configured to 2 (both
before the call and in the new options), `Config` with port 0 normalizes the
port but writes TWO info-level log lines, not exactly one. -/
theorem C2_counterexample :
    (sLevel2.Config oPort0).options.Port = 9000
    ∧ (sLevel2.Config oPort0).logOut.length = 2
    ∧ ¬ (sLevel2.Config oPort0).logOut.length = 1 := by
  refine ⟨rfl, rfl, by decide⟩

/-- Claim C2 (amended): for every configuration record with port 0, `Config`
stores port 9000 and appends exactly two info-level log lines when the log
level configured BEFORE the call is non-zero and at most 2, and none
otherwise (the two `log` calls run before the new options are stored, and the
implemented level test is `LogLevel ≤ 2`). -/
theorem C2_config_port_zero (h : Server) (o : Options) (hp : o.Port = 0) :
    (h.Config o).options.Port = 9000
    ∧ (h.Config o).logOut = h.logOut ++
        (if ¬ h.options.LogLevel = 0 ∧ h.options.LogLevel ≤ 2
         then [logLine "port can't be '0'", logLine "set port by default (9000)"]
         else []) := by
  unfold Server.Config
  rw [if_pos hp]
  refine ⟨rfl, ?_⟩
  show ((h.log "port can't be '0'" 2).log "set port by default (9000)" 2).logOut = _
  rw [log_logOut, log_logOut, log_options, List.append_assoc]
  congr 1
  unfold emittedLines
  by_cases h0 : h.options.LogLevel = 0
  · simp [h0]
  · by_cases h2 : h.options.LogLevel ≤ 2
    · simp [h0, h2]
    · simp [h0, h2]

/-- Witness for C2: at log level 2 the two lines are emitted and the port is
normalized. -/
theorem C2_config_port_zero_witness :
    (sLevel2.Config oPort0).options.Port = 9000
    ∧ (sLevel2.Config oPort0).logOut = sLevel2.logOut ++
        (if ¬ sLevel2.options.LogLevel = 0 ∧ sLevel2.options.LogLevel ≤ 2
         then [logLine "port can't be '0'", logLine "set port by default (9000)"]
         else []) :=
  C2_config_port_zero sLevel2 oPort0 rfl

/-- Claim C3 counterexample: a `LoadKeyPair` call that fails because the
certificate and key do not form a valid pair does NOT leave the pool as it
was: the pool that held one certificate before the call has been replaced by
a fresh empty pool. -/
theorem C3_counterexample :
    isError (sPool5.LoadKeyPair testEnv [] []) = true
    ∧ sPool5.certs.pool.Pool = some ⟨[⟨[5]⟩]⟩
    ∧ (resultState (sPool5.LoadKeyPair testEnv [] []) NewServer).certs.pool.Pool = some ⟨[]⟩
    ∧ ¬ (resultState (sPool5.LoadKeyPair testEnv [] []) NewServer).certs.pool.Pool
        = sPool5.certs.pool.Pool := by
  refine ⟨rfl, rfl, rfl, by decide⟩

/-- Claim C3 (amended): the error paths of `AddClientCACert`, `Start` and
`Accept` leave the stored credential, pool, options and listener unchanged
(`AddClientCACert` and `Start` error returns change nothing at all, `Accept`
only the optional log line, and `log` itself never changes anything but the
log trace).  A failing `LoadKeyPair`, however, has already replaced the
trusted-client pool with a fresh empty pool before the failure: only the
remaining fields are preserved on its pair-parse error path. -/
theorem C3_error_paths (env : Env) (h : Server) :
    (∀ inp blk e, env.pemDecode inp = some blk →
        env.parseCertificate blk.Bytes = Except.error e →
        h.AddClientCACert env inp
          = some (Except.error (LoadClientCaCertError ++ ": " ++ e ++ "\n"), h))
    ∧ (h.certs.Cert.Certificate.length = 0 →
        h.Start env = (Except.error (NoKeyPairLoad ++ "\n"), h))
    ∧ (∀ e, ¬ h.certs.Cert.Certificate.length = 0 →
        env.tlsListen "tcp" h.service h.tlsConfig = Except.error e →
        h.Start env = (Except.error (StartServerError ++ ": " ++ e ++ "\n"), h))
    ∧ (∀ l e, h.listener = some l → env.accept l = Except.error e →
        h.Accept env = some (Except.error (AcceptConnError ++ ": " ++ e ++ "\n"),
          h.log ("accept conn error: " ++ e) 3))
    ∧ (∀ m lvl, sameCore (h.log m lvl) h)
    ∧ (∀ cert key e, env.x509KeyPair cert key = Except.error e →
        h.LoadKeyPair env cert key
          = some (Except.error (LoadKeyPairError ++ ": " ++ e ++ "\n"),
                  h.withPool (some CertPool.New))) := by
  refine ⟨?_, ?_, ?_, ?_, ?_, ?_⟩
  · intro inp blk e hd hp
    exact addClientCACert_parseError env h inp blk e hd hp
  · intro hc
    exact start_noCredentials env h hc
  · intro e hc hl
    exact start_listenError env h e hc hl
  · intro l e hL ha
    exact accept_error env h l e hL ha
  · intro m lvl
    exact log_sameCore h m lvl
  · intro cert key e hk
    exact loadKeyPair_pairError env h cert key e hk

/-- Witness for C3 (amended): the failed pair parse returns the wrapped error
with the pool reset, and `Start` without credentials returns unchanged. -/
theorem C3_error_paths_witness :
    sPool5.LoadKeyPair testEnv [] []
      = some (Except.error
          (LoadKeyPairError ++ ": tls: failed to find any PEM data in certificate input\n"),
          sPool5.withPool (some CertPool.New))
    ∧ NewServer.Start testEnv = (Except.error (NoKeyPairLoad ++ "\n"), NewServer) :=
  ⟨(C3_error_paths testEnv sPool5).2.2.2.2.2 [] []
      "tls: failed to find any PEM data in certificate input" (by decide),
   (C3_error_paths testEnv NewServer).2.1 (by decide)⟩

/-- Claim C4 (code-bug demonstration): an input in which `pem.Decode` finds no
PEM block makes `AddClientCACert` dereference the nil `*pem.Block` — a runtime
panic (modelled as `none`) — rather than returning the claimed
`ClientCACertError`; the pool was even properly initialized beforehand. -/
theorem C4_addClientCACert_panics :
    testEnv.pemDecode [] = none
    ∧ ¬ sLoaded.certs.pool.Pool = none
    ∧ sLoaded.AddClientCACert testEnv [] = none := by
  refine ⟨rfl, by decide, rfl⟩

/-- Claim C5: whenever the stored certificate chain is empty, `Start` fails
with the `NoKeyPairLoad` error and returns the state unchanged — this holds
for EVERY environment, including ones whose listen always succeeds, so no
socket bind is performed and no listener is stored. -/
theorem C5_start_without_credentials (env : Env) (h : Server)
    (hc : h.certs.Cert.Certificate = []) :
    h.Start env = (Except.error (NoKeyPairLoad ++ "\n"), h) :=
  start_noCredentials env h (by rw [hc]; rfl)

/-- Witness for C5: a fresh server has no credentials; `Start` fails and no
listening socket exists afterward. -/
theorem C5_start_without_credentials_witness :
    NewServer.Start testEnv = (Except.error (NoKeyPairLoad ++ "\n"), NewServer)
    ∧ (NewServer.Start testEnv).2.listener = none := by
  refine ⟨C5_start_without_credentials testEnv NewServer rfl, ?_⟩
  rw [C5_start_without_credentials testEnv NewServer rfl]
  rfl

/-- Claim C6: a successful `LoadKeyPair` — the pair parses (with the non-empty
chain `tls.X509KeyPair` guarantees on success) and the first PEM block of the
certificate input parses — stores a non-empty credential and leaves the
trusted pool with exactly one entry: the certificate parsed from the first
PEM block of the certificate input. -/
theorem C6_loadKeyPair_success (env : Env) (h : Server) (cert key : Bytes)
    (c : TLSCertificate) (blk : PemBlock) (ca : X509Cert)
    (hk : env.x509KeyPair cert key = Except.ok c)
    (hne : ¬ c.Certificate = [])
    (hd : env.pemDecode cert = some blk)
    (hp : env.parseCertificate blk.Bytes = Except.ok ca) :
    ∃ h2, h.LoadKeyPair env cert key = some (Except.ok (), h2)
      ∧ h2.certs.Cert = c
      ∧ ¬ h2.certs.Cert.Certificate = []
      ∧ h2.certs.pool.Pool = some ⟨[ca]⟩
      ∧ h2.certs.pool.IsSet = true := by
  refine ⟨_, loadKeyPair_ok env h cert key c blk ca hk hd hp, ?_, ?_, ?_, ?_⟩
  · rw [log_certs]
    rfl
  · rw [log_certs]
    exact hne
  · rw [log_certs]
    show some (CertPool.New.AddCert ca) = some ⟨[ca]⟩
    simp [CertPool.AddCert, CertPool.New]
  · rw [log_certs]
    rfl

/-- Witness for C6: a concrete successful load from the fresh server. -/
theorem C6_loadKeyPair_success_witness :
    ∃ h2, NewServer.LoadKeyPair testEnv [1] [1] = some (Except.ok (), h2)
      ∧ h2.certs.Cert = ⟨[[1]]⟩
      ∧ ¬ h2.certs.Cert.Certificate = []
      ∧ h2.certs.pool.Pool = some ⟨[⟨[1]⟩]⟩
      ∧ h2.certs.pool.IsSet = true :=
  C6_loadKeyPair_success testEnv NewServer [1] [1] ⟨[[1]]⟩ ⟨[1]⟩ ⟨[1]⟩
    (by decide) (by decide) (by decide) (by decide)

/-- Claim C7: from any state reached by a successful `LoadKeyPair` followed by
any number of successful `AddClientCACert` calls, a second successful
`LoadKeyPair` with another valid pair replaces the stored credential and
resets the pool so that it holds exactly the one entry from the second call —
every previously added CA is discarded. -/
theorem C7_loadKeyPair_reset (env : Env) (h0 h1 h2 : Server)
    (cert1 key1 cert2 key2 : Bytes) (adds : List Bytes)
    (c2 : TLSCertificate) (blk2 : PemBlock) (ca2 : X509Cert)
    (hl1 : h0.LoadKeyPair env cert1 key1 = some (Except.ok (), h1))
    (ha : addAll env h1 adds = some h2)
    (hk : env.x509KeyPair cert2 key2 = Except.ok c2)
    (hd : env.pemDecode cert2 = some blk2)
    (hp : env.parseCertificate blk2.Bytes = Except.ok ca2) :
    ∃ h3, h2.LoadKeyPair env cert2 key2 = some (Except.ok (), h3)
      ∧ h3.certs.Cert = c2
      ∧ h3.certs.pool.Pool = some ⟨[ca2]⟩ := by
  refine ⟨_, loadKeyPair_ok env h2 cert2 key2 c2 blk2 ca2 hk hd hp, ?_, ?_⟩
  · rw [log_certs]
    rfl
  · rw [log_certs]
    show some (CertPool.New.AddCert ca2) = some ⟨[ca2]⟩
    simp [CertPool.AddCert, CertPool.New]

/-- Witness for C7: load, add one extra CA, re-load with a different pair —
the pool afterward holds only the second pair's certificate. -/
theorem C7_loadKeyPair_reset_witness :
    ∃ h3, sLoadedAdded.LoadKeyPair testEnv [1, 7] [1] = some (Except.ok (), h3)
      ∧ h3.certs.Cert = ⟨[[1, 7]]⟩
      ∧ h3.certs.pool.Pool = some ⟨[⟨[1, 7]⟩]⟩ :=
  C7_loadKeyPair_reset testEnv NewServer sLoaded sLoadedAdded [1] [1] [1, 7] [1] [[2]]
    ⟨[[1, 7]]⟩ ⟨[1, 7]⟩ ⟨[1, 7]⟩ rfl rfl (by decide) (by decide) (by decide)

/-- Claim C8 counterexample: after a successful `LoadKeyPair` (pool holds the
issuer `⟨[1]⟩`), adding N = 1 valid CA certificate — the list `[⟨[1]⟩]`, which
is trivially pairwise distinct — leaves the pool at 1 entry, not N+1 = 2,
because `x509.CertPool.AddCert` deduplicates against the implicit entry. -/
theorem C8_counterexample :
    parsesTo testEnv [1] = some ⟨[1]⟩
    ∧ ([(⟨[1]⟩ : X509Cert)]).Nodup
    ∧ sLoaded.certs.pool.Pool = some ⟨[⟨[1]⟩]⟩
    ∧ addAll testEnv sLoaded [[1]] = some sLoaded
    ∧ (sLoaded.certs.pool.Pool.map fun p => p.certs.length) = some 1
    ∧ ¬ (sLoaded.certs.pool.Pool.map fun p => p.certs.length) = some 2 := by
  refine ⟨rfl, by decide, rfl, rfl, rfl, by decide⟩

/-- Claim C8 (amended): after a successful `LoadKeyPair` whose implicit pool
entry is `ca`, adding N pairwise-distinct CA certificates, EACH ALSO DISTINCT
FROM `ca`, yields a pool of N+1 entries; and any permutation of the same
additions yields a pool with exactly the same membership. -/
theorem C8_pool_size_membership (env : Env) (h : Server)
    (cert key : Bytes) (c : TLSCertificate) (blk : PemBlock) (ca : X509Cert)
    (hk : env.x509KeyPair cert key = Except.ok c)
    (hd : env.pemDecode cert = some blk)
    (hpc : env.parseCertificate blk.Bytes = Except.ok ca)
    (inputs inputs2 : List Bytes) (cas cas2 : List X509Cert)
    (hmap : inputs.map (parsesTo env) = cas.map some)
    (hmap2 : inputs2.map (parsesTo env) = cas2.map some)
    (hperm : cas2.Perm cas)
    (hnd : (ca :: cas).Nodup) :
    ∃ h0 h1 p1 h2 p2,
      h.LoadKeyPair env cert key = some (Except.ok (), h0)
      ∧ addAll env h0 inputs = some h1
      ∧ h1.certs.pool.Pool = some p1
      ∧ p1.certs.length = cas.length + 1
      ∧ (∀ x, x ∈ p1.certs ↔ x = ca ∨ x ∈ cas)
      ∧ addAll env h0 inputs2 = some h2
      ∧ h2.certs.pool.Pool = some p2
      ∧ (∀ x, x ∈ p2.certs ↔ x ∈ p1.certs) := by
  have hload := loadKeyPair_ok env h cert key c blk ca hk hd hpc
  have hpool0 :
      (Server.log ((((h.withPool (some CertPool.New)).withCert c).withPool
          (some (CertPool.New.AddCert ca))).withIsSet true)
        "load key pair ok" 2).certs.pool.Pool = some (CertPool.New.AddCert ca) := by
    rw [log_certs]
    rfl
  have hp0 : (CertPool.New.AddCert ca).certs = [ca] := by
    simp [CertPool.AddCert, CertPool.New]
  obtain ⟨h1, hrun1, hpool1, _, _, _, _⟩ :=
    addAll_ok env inputs cas _ (CertPool.New.AddCert ca) hmap hpool0
  obtain ⟨h2, hrun2, hpool2, _, _, _, _⟩ :=
    addAll_ok env inputs2 cas2 _ (CertPool.New.AddCert ca) hmap2 hpool0
  refine ⟨_, h1, _, h2, _, hload, hrun1, hpool1, ?_, ?_, hrun2, hpool2, ?_⟩
  · have hndp : ((CertPool.New.AddCert ca).certs ++ cas).Nodup := by
      rw [hp0]
      exact hnd
    rw [length_foldAdd cas (CertPool.New.AddCert ca) hndp, hp0]
    simp [Nat.add_comm]
  · intro x
    rw [mem_foldAdd, hp0]
    simp
  · intro x
    rw [mem_foldAdd, mem_foldAdd]
    simp [hperm.mem_iff]

/-- Witness for C8 (amended): two distinct CAs added in both orders after a
load; the pool reaches 3 entries with identical membership. -/
theorem C8_pool_size_membership_witness :
    ∃ h0 h1 p1 h2 p2,
      NewServer.LoadKeyPair testEnv [1] [1] = some (Except.ok (), h0)
      ∧ addAll testEnv h0 [[2], [3]] = some h1
      ∧ h1.certs.pool.Pool = some p1
      ∧ p1.certs.length = [(⟨[2]⟩ : X509Cert), ⟨[3]⟩].length + 1
      ∧ (∀ x, x ∈ p1.certs ↔ x = ⟨[1]⟩ ∨ x ∈ [(⟨[2]⟩ : X509Cert), ⟨[3]⟩])
      ∧ addAll testEnv h0 [[3], [2]] = some h2
      ∧ h2.certs.pool.Pool = some p2
      ∧ (∀ x, x ∈ p2.certs ↔ x ∈ p1.certs) :=
  C8_pool_size_membership testEnv NewServer [1] [1] ⟨[[1]]⟩ ⟨[1]⟩ ⟨[1]⟩
    (by decide) (by decide) (by decide)
    [[2], [3]] [[3], [2]] [⟨[2]⟩, ⟨[3]⟩] [⟨[3]⟩, ⟨[2]⟩]
    (by decide) (by decide) (List.Perm.swap _ _ _) (by decide)

/-- Claim C9: with `LogLevel = 0`, no operation writes anything to the log
sink, whatever the outcome — the log trace after each call (success or error
return; panic outcomes yield no post-state) equals the trace before it. -/
theorem C9_logLevel_zero_silent (env : Env) (h : Server)
    (hz : h.options.LogLevel = 0) :
    (∀ o, (h.Config o).logOut = h.logOut)
    ∧ (∀ cert key r h2, h.LoadKeyPair env cert key = some (r, h2) → h2.logOut = h.logOut)
    ∧ (∀ inp r h2, h.AddClientCACert env inp = some (r, h2) → h2.logOut = h.logOut)
    ∧ (∀ r h2, h.Start env = (r, h2) → h2.logOut = h.logOut)
    ∧ (∀ r h2, h.Accept env = some (r, h2) → h2.logOut = h.logOut) := by
  refine ⟨?_, ?_, ?_, ?_, ?_⟩
  · intro o
    unfold Server.Config
    split
    · show ((h.log "port can't be '0'" 2).log "set port by default (9000)" 2).logOut = h.logOut
      rw [log_logOut, log_logOut, log_options]
      simp [emittedLines, hz]
    · rfl
  · intro cert key r h2 hrun
    cases hx : env.x509KeyPair cert key with
    | error e =>
      rw [loadKeyPair_pairError env h cert key e hx] at hrun
      simp only [Option.some.injEq, Prod.mk.injEq] at hrun
      rw [← hrun.2]
      rfl
    | ok c =>
      cases hd : env.pemDecode cert with
      | none =>
        have hnone : h.LoadKeyPair env cert key = none := by
          unfold Server.LoadKeyPair
          simp only [hx, hd]
        rw [hnone] at hrun
        cases hrun
      | some blk =>
        cases hp : env.parseCertificate blk.Bytes with
        | error e =>
          rw [loadKeyPair_reparseError env h cert key c blk e hx hd hp] at hrun
          simp only [Option.some.injEq, Prod.mk.injEq] at hrun
          rw [← hrun.2]
          rfl
        | ok ca =>
          rw [loadKeyPair_ok env h cert key c blk ca hx hd hp] at hrun
          simp only [Option.some.injEq, Prod.mk.injEq] at hrun
          rw [← hrun.2, log_logOut]
          simp [Server.withPool, Server.withCert, Server.withIsSet, emittedLines, hz]
  · intro inp r h2 hrun
    cases hd : env.pemDecode inp with
    | none =>
      have hnone : h.AddClientCACert env inp = none := by
        unfold Server.AddClientCACert
        simp only [hd]
      rw [hnone] at hrun
      cases hrun
    | some blk =>
      cases hp : env.parseCertificate blk.Bytes with
      | error e =>
        rw [addClientCACert_parseError env h inp blk e hd hp] at hrun
        simp only [Option.some.injEq, Prod.mk.injEq] at hrun
        rw [← hrun.2]
      | ok ca =>
        cases hq : h.certs.pool.Pool with
        | none =>
          have hnone : h.AddClientCACert env inp = none := by
            unfold Server.AddClientCACert Server.poolAddCert
            simp only [hd, hp, hq]
          rw [hnone] at hrun
          cases hrun
        | some p =>
          have hca : parsesTo env inp = some ca := by
            simp only [parsesTo, hd, hp]
          rw [addClientCACert_ok env h inp ca p hca hq] at hrun
          simp only [Option.some.injEq, Prod.mk.injEq] at hrun
          rw [← hrun.2, log_logOut]
          simp [Server.withPool, emittedLines, hz]
  · intro r h2 hrun
    by_cases hc : h.certs.Cert.Certificate.length = 0
    · rw [start_noCredentials env h hc] at hrun
      simp only [Prod.mk.injEq] at hrun
      rw [← hrun.2]
    · cases hl : env.tlsListen "tcp" h.service h.tlsConfig with
      | error e =>
        rw [start_listenError env h e hc hl] at hrun
        simp only [Prod.mk.injEq] at hrun
        rw [← hrun.2]
      | ok l =>
        rw [start_ok env h l hc hl] at hrun
        simp only [Prod.mk.injEq] at hrun
        rw [← hrun.2, log_logOut]
        simp [emittedLines, hz]
  · intro r h2 hrun
    cases hL : h.listener with
    | none =>
      have hnone : h.Accept env = none := by
        unfold Server.Accept
        simp only [hL]
      rw [hnone] at hrun
      cases hrun
    | some l =>
      cases ha : env.accept l with
      | error e =>
        rw [accept_error env h l e hL ha] at hrun
        simp only [Option.some.injEq, Prod.mk.injEq] at hrun
        rw [← hrun.2, log_logOut]
        simp [emittedLines, hz]
      | ok conn =>
        rw [accept_ok env h l conn hL ha] at hrun
        simp only [Option.some.injEq, Prod.mk.injEq] at hrun
        rw [← hrun.2, log_logOut]
        simp [emittedLines, hz]

/-- Witness for C9: the fresh server has level 0; `Config` with port 0 and a
successful `LoadKeyPair` both leave the (empty) log trace unchanged. -/
theorem C9_logLevel_zero_silent_witness :
    (NewServer.Config oPort0).logOut = NewServer.logOut
    ∧ sLoaded.logOut = NewServer.logOut :=
  ⟨(C9_logLevel_zero_silent testEnv NewServer rfl).1 oPort0,
   (C9_logLevel_zero_silent testEnv NewServer rfl).2.1 [1] [1] (Except.ok ()) sLoaded rfl⟩

/-- Claim C10: when the key pair parses (with the non-empty chain success
guarantees) but the first PEM block of the certificate input fails to
re-parse, `LoadKeyPair` returns the `KeyPairLoadError` — yet the credential
has already been stored: the pool is left freshly empty, a subsequent `Start`
never fails with the `NoKeyPairLoad` error (for any environment), and the TLS
configuration `Start` builds carries the empty trusted-client pool. -/
theorem C10_partial_credential_stored (env : Env) (h : Server)
    (cert key : Bytes) (c : TLSCertificate) (blk : PemBlock) (e : String)
    (hk : env.x509KeyPair cert key = Except.ok c)
    (hne : ¬ c.Certificate = [])
    (hd : env.pemDecode cert = some blk)
    (hp : env.parseCertificate blk.Bytes = Except.error e) :
    ∃ h2, h.LoadKeyPair env cert key
        = some (Except.error (LoadKeyPairError ++ ": " ++ e ++ "\n"), h2)
      ∧ h2.certs.Cert = c
      ∧ h2.certs.pool.Pool = some CertPool.New
      ∧ ¬ (h2.Start env).1 = Except.error (NoKeyPairLoad ++ "\n")
      ∧ h2.tlsConfig.ClientCAs = some CertPool.New := by
  refine ⟨_, loadKeyPair_reparseError env h cert key c blk e hk hd hp, rfl, rfl, ?_, rfl⟩
  have hlen : ¬ ((h.withPool (some CertPool.New)).withCert c).certs.Cert.Certificate.length = 0 := by
    show ¬ c.Certificate.length = 0
    simpa [List.length_eq_zero] using hne
  cases hl : env.tlsListen "tcp" ((h.withPool (some CertPool.New)).withCert c).service
      ((h.withPool (some CertPool.New)).withCert c).tlsConfig with
  | error e2 =>
    rw [start_listenError env _ e2 hlen hl]
    intro hcontra
    exact startErr_ne_noKey e2 (Except.error.inj hcontra)
  | ok l =>
    rw [start_ok env _ l hlen hl]
    intro hcontra
    cases hcontra

/-- Witness for C10: certificate bytes `[9]` parse as a key pair under
`testEnv` but their first PEM block fails certificate re-parsing; the
credential is stored anyway and `Start` proceeds past the credential check
with an empty client-CA pool. -/
theorem C10_partial_credential_stored_witness :
    ∃ h2, NewServer.LoadKeyPair testEnv [9] [1]
        = some (Except.error (LoadKeyPairError ++ ": x509: malformed certificate\n"), h2)
      ∧ h2.certs.Cert = ⟨[[9]]⟩
      ∧ h2.certs.pool.Pool = some CertPool.New
      ∧ ¬ (h2.Start testEnv).1 = Except.error (NoKeyPairLoad ++ "\n")
      ∧ h2.tlsConfig.ClientCAs = some CertPool.New :=
  C10_partial_credential_stored testEnv NewServer [9] [1] ⟨[[9]]⟩ ⟨[9]⟩
    "x509: malformed certificate" (by decide) (by decide) (by decide) (by decide)

end Herots
